import Mathlib

/-!
Verification development for the basketball-teammate-game repository
(`basketball_teammate_game.py` and `nna_guess_teammate.py`).

Strings are modelled as lists of characters (`Str`).  Python's Unicode
machinery (`unicodedata.normalize('NFKD', ·)`, `unicodedata.combining`,
`str.lower`) is embedded on the fragment of the character tables the
program exercises: ASCII plus the precomposed letters LATIN SMALL/CAPITAL
LETTER C WITH ACUTE together with COMBINING ACUTE ACCENT; characters
outside this fragment are treated as atomic (no decomposition, not
combining, lower-casing fixes them).
-/

/-- Model of Python strings: a list of characters. -/
abbrev Str := List Char

/-- Convenience: the character list of a Lean string literal. -/
def S (s : String) : Str := s.data

/-- COMBINING ACUTE ACCENT (U+0301). -/
def combiningAcute : Char := '́'

/-- Model of `unicodedata.combining(ch) != 0` on the embedded fragment. -/
def isCombiningMark (c : Char) : Bool := c = combiningAcute

/-- Model of the per-character NFKD decomposition used by
`unicodedata.normalize('NFKD', name)` on the embedded fragment:
the precomposed letters decompose into base letter plus combining acute,
every other character is atomic. -/
def decompNFKD (c : Char) : List Char :=
  if c = 'ć' then ['c', combiningAcute]
  else if c = 'Ć' then ['C', combiningAcute]
  else [c]

/-- Lower-case table of Python `str.lower` on the embedded fragment:
the 26 ASCII capitals plus the capital C-with-acute. -/
def lowerTable : List (Char × Char) :=
  [('A', 'a'), ('B', 'b'), ('C', 'c'), ('D', 'd'), ('E', 'e'), ('F', 'f'),
   ('G', 'g'), ('H', 'h'), ('I', 'i'), ('J', 'j'), ('K', 'k'), ('L', 'l'),
   ('M', 'm'), ('N', 'n'), ('O', 'o'), ('P', 'p'), ('Q', 'q'), ('R', 'r'),
   ('S', 's'), ('T', 't'), ('U', 'u'), ('V', 'v'), ('W', 'w'), ('X', 'x'),
   ('Y', 'y'), ('Z', 'z'), ('Ć', 'ć')]

/-- Model of Python `str.lower` at one character. -/
def pyToLower (c : Char) : Char :=
  (((lowerTable.find? (fun p => p.1 == c)).map Prod.snd).getD c)

/-- Model of Python `str.lower` on a whole string. -/
def lowerStr (s : Str) : Str := s.map pyToLower

/-- Model of the whitespace recognised by Python `str.strip`. -/
def isPySpace (c : Char) : Bool := c == ' ' || c == '\t' || c == '\n'

/-- Model of Python `str.strip`: drop leading and trailing whitespace. -/
def stripStr (s : Str) : Str :=
  (((s.dropWhile isPySpace).reverse).dropWhile isPySpace).reverse

/-- Embedding of `normalize_name` (basketball_teammate_game.py, lines
244-252): NFKD-decompose, drop the combining marks, lower-case, strip. -/
def normalize_name (s : Str) : Str :=
  stripStr ((((s.flatMap decompNFKD).filter
    (fun c => ! isCombiningMark c))).map pyToLower)

example : normalize_name (S "Nurkić") = S "nurkic" := by decide
example : normalize_name (S "NURKIC ") = S "nurkic" := by decide

/-- Model of Python list/string prefix test, used by substring containment. -/
def isPrefixList : Str → Str → Bool
  | [], _ => true
  | _ :: _, [] => false
  | p :: ps, c :: cs => p == c && isPrefixList ps cs

/-- Model of the Python substring test `pat in s`. -/
def strContains (s pat : Str) : Bool :=
  match s with
  | [] => pat == []
  | _ :: t => isPrefixList pat s || strContains t pat

example : strContains (S "x/players/y") (S "/players/") = true := by decide
example : strContains (S "Team") (S "Teammate") = false := by decide

/-- Model of Python `s.split(sep)` for a one-character separator. -/
def splitOnChar (sep : Char) (s : Str) : List Str :=
  s.foldr
    (fun c acc =>
      if c = sep then [] :: acc
      else
        match acc with
        | [] => [[c]]
        | g :: gs => (c :: g) :: gs)
    [[]]

example : splitOnChar '/' (S "a/bc/d") = [S "a", S "bc", S "d"] := by decide

/-- Fuel-driven worker for `removeAllSub`; the fuel bounds the length of
the remaining input, so it never runs out when started at `s.length`. -/
def removeAllSubAux (pat : Str) : Nat → Str → Str
  | 0, s => s
  | _ + 1, [] => []
  | fuel + 1, c :: t =>
    if pat ≠ [] ∧ isPrefixList pat (c :: t) then
      removeAllSubAux pat fuel (t.drop (pat.length - 1))
    else
      c :: removeAllSubAux pat fuel t

/-- Model of Python `s.replace(pat, "")`: delete every occurrence of a
non-empty pattern. -/
def removeAllSub (pat s : Str) : Str := removeAllSubAux pat s.length s

example : removeAllSub (S ".html") (S "abcd01.html") = S "abcd01" := by decide

/-- Model of Python `s.split(pat)[0]`: the text before the first
occurrence of the pattern (the whole string when the pattern is absent). -/
def takeBeforeSub (pat : Str) : Str → Str
  | [] => []
  | c :: t =>
    if pat ≠ [] ∧ isPrefixList pat (c :: t) then []
    else c :: takeBeforeSub pat t

example : takeBeforeSub (S " Stats") (S "Jusuf Nurkić Stats etc") =
    S "Jusuf Nurkić" := by decide

/-- ASCII decimal digit test. -/
def isDigitChar (c : Char) : Bool := '0' ≤ c && c ≤ '9'

/-- Model of Python `str.isdigit` on the embedded fragment: non-empty and
all characters are digits. -/
def isDigitStr (s : Str) : Bool := ! s.isEmpty && s.all isDigitChar

/-- Model of `.str.replace(r"\*", "", regex=True)`: drop every asterisk. -/
def removeStar (s : Str) : Str := s.filter (fun c => c != '*')

/-- Decimal digit list of a natural number (via `Nat.toDigits`). -/
def natToStr (n : Nat) : Str := Nat.toDigits 10 n

/-- Model of Python `str(·)` on an integer value. -/
def intToStr (n : Int) : Str :=
  if n < 0 then '-' :: natToStr n.natAbs else natToStr n.natAbs

/-- Numeric value of a digit character. -/
def digitVal (c : Char) : Nat := c.toNat - 48

/-- Parse a non-empty all-digit string into a natural number. -/
def parseNatStr (s : Str) : Option Nat :=
  if ! s.isEmpty && s.all isDigitChar then
    some (s.foldl (fun a c => a * 10 + digitVal c) 0)
  else none

/-- Model of `pd.to_numeric(·, errors="coerce")` on a string cell
(integer fragment): strip, optional sign, digits; anything else is NaN. -/
def parseIntStr (s : Str) : Option Int :=
  match stripStr s with
  | '-' :: t => (parseNatStr t).map (fun n => -(n : Int))
  | t => (parseNatStr t).map (fun n => (n : Int))

example : parseIntStr (S " 52 ") = some 52 := by decide
example : parseIntStr (S "Did Not Play") = none := by decide

/-- A cell of the scraped `Teammates & Opponents` table: a number, a
string, or a missing value (pandas `NaN`). -/
inductive PyCell
  | num (n : Int)
  | str (s : Str)
  | nan
deriving DecidableEq

/-- True for every cell except a missing value; model of `.dropna()`. -/
def notNan : PyCell → Bool
  | .nan => false
  | _ => true

/-- Model of pandas `.astype(str)` at one (non-NaN) cell. -/
def cellToStr : PyCell → Str
  | .num n => intToStr n
  | .str s => s
  | .nan => S "nan"

/-- Model of `pd.to_numeric(·, errors="coerce")` at one cell. -/
def cellToNum : PyCell → Option Int
  | .num n => some n
  | .str s => parseIntStr s
  | .nan => none

/-- A column header of the scraped table: either a flat string or a
multi-level (composite) tuple of level strings. -/
inductive PyHeader
  | flat (s : Str)
  | multi (ls : List Str)
deriving DecidableEq

/-- True on multi-level (tuple) headers; model of `isinstance(col, tuple)`
and of `df.columns.nlevels > 1`. -/
def isMultiHeader : PyHeader → Bool
  | .flat _ => false
  | .multi _ => true

/-- The string the main variant's teammate-column search inspects:
`col if isinstance(col, str) else ' '.join(map(str, col))`. -/
def headerJoined : PyHeader → Str
  | .flat s => s
  | .multi ls => match ls with
    | [] => []
    | l :: rest => rest.foldl (fun acc x => acc ++ [' '] ++ x) l

/-- Main variant's teammate-column test (basketball_teammate_game.py,
lines 198-203): the (joined) header contains the token `Teammate`. -/
def isTeammateHeader (h : PyHeader) : Bool :=
  strContains (headerJoined h) (S "Teammate")

/-- Main variant's games-column test (basketball_teammate_game.py, lines
205-210): the header is the flat string `G` after stripping, or a tuple
whose last level strips to `G`. -/
def isGHeader : PyHeader → Bool
  | .flat s => stripStr s == S "G"
  | .multi ls => stripStr (ls.getLastD []) == S "G"

/-- The scraped table handed to `pd.read_html`: headers plus rows of
cells (a short row reads as missing values in the absent columns). -/
structure PyTable where
  headers : List PyHeader
  rows : List (List PyCell)
deriving DecidableEq

/-- Index of the first column whose header satisfies the predicate;
model of `next((col for col in df.columns if ...), None)`. -/
def findColIdx (p : PyHeader → Bool) (hs : List PyHeader) : Option Nat :=
  hs.findIdx? p

/-- Cell of a row in the given column (missing cells read as NaN). -/
def rowCell (r : List PyCell) (i : Nat) : PyCell := r.getD i PyCell.nan

/-- Model of the row mask `pd.to_numeric(df[g_col],
errors="coerce").gt(min_games)` at one row. -/
def gMask (gcol : Option Nat) (min_games : Int) (r : List PyCell) : Bool :=
  match gcol with
  | none => true
  | some gi =>
    match cellToNum (rowCell r gi) with
    | some n => min_games < n
    | none => false

/-- Model of the cleaning pipeline applied to the selected teammate-name
cells in the main variant (basketball_teammate_game.py, lines 220-228):
`.dropna().astype(str).str.replace(r"\*","",regex=True).str.strip()`
then keep values of length above 2 that are not purely numeric. -/
def cleanSeries (cells : List PyCell) : List Str :=
  (((cells.filter notNan).map
      (fun c => stripStr (removeStar (cellToStr c)))).filter
    (fun s => decide (2 < s.length) && ! isDigitStr s))

/-- Embedding of `fetch_teammates` (basketball_teammate_game.py, lines
166-230), starting from the parsed table: locate the teammate column and
the `G` column, keep rows whose games count exceeds `min_games` (all rows
when no `G` column is present), and clean the teammate-name cells. -/
def fetch_teammates (t : PyTable) (min_games : Int) : List Str :=
  match findColIdx isTeammateHeader t.headers with
  | none => []
  | some ti =>
    let gcol := findColIdx isGHeader t.headers
    cleanSeries
      (((t.rows.filter (gMask gcol min_games)).map (fun r => rowCell r ti)))

/-- Teammate-column test of the nna variant inside the multi-level branch
(nna_guess_teammate.py, lines 100-109): a tuple header matches when any
level contains `Teammate`, a flat header when it contains `Teammate`. -/
def nnaHeaderMatch : PyHeader → Bool
  | .flat s => strContains s (S "Teammate")
  | .multi ls => ls.any (fun x => strContains x (S "Teammate"))

/-- Column selection of the nna variant (nna_guess_teammate.py, lines
99-118): with multi-level headers, the first column matching
`nnaHeaderMatch`; with single-level headers, the column named exactly
`Teammate`, otherwise column index 1 when the table has at least two
columns, otherwise nothing. -/
def nnaSelectCol (t : PyTable) : Option Nat :=
  if t.headers.any isMultiHeader then
    findColIdx nnaHeaderMatch t.headers
  else
    match findColIdx (fun h => h == PyHeader.flat (S "Teammate")) t.headers with
    | some i => some i
    | none => if 1 < t.headers.length then some 1 else none

/-- Embedding of `fetch_teammates` of the nna variant
(nna_guess_teammate.py, lines 67-128), starting from the parsed table:
select a column, then `.dropna().astype(str)`, drop empty and `nan`
strings, strip asterisks and whitespace, and keep values of length above
2 that are not purely numeric.  No games-count filter exists here. -/
def fetchTeammatesNna (t : PyTable) : List Str :=
  match nnaSelectCol t with
  | none => []
  | some i =>
    let strs := ((t.rows.map (fun r => rowCell r i)).filter notNan).map cellToStr
    let strs2 := (strs.filter (fun s => ! s.isEmpty && s != S "nan")).map
      (fun s => stripStr (removeStar s))
    strs2.filter (fun s => decide (2 < s.length) && ! isDigitStr s)

/-- One entry of the list `search_player` returns: display name, stable
player key, and page URL. -/
structure SearchResult where
  name : Str
  pid : Str
  url : Str
deriving DecidableEq

/-- The parts of the HTTP response that `search_player` inspects: the
final URL after redirects, the text of the `<title>` tag when one
exists, and the `(href, text)` pairs of the links inside the
`search-results` div when that div exists. -/
structure PageData where
  url : Str
  title : Option Str
  searchLinks : Option (List (Str × Str))
deriving DecidableEq

/-- The stable key `resp.url.split('/')[-1].replace('.html', '')`. -/
def pidOfUrl (u : Str) : Str :=
  removeAllSub (S ".html") ((splitOnChar '/' u).getLastD [])

/-- Embedding of `search_player` (basketball_teammate_game.py, lines
122-162, identical in nna_guess_teammate.py, lines 24-63), starting from
the received page: on a URL containing `/players/` build one result from
the URL's stable key and the page title (none when the title is absent);
otherwise collect the player links of the `search-results` div. -/
def search_player (page : PageData) : List SearchResult :=
  if strContains page.url (S "/players/") then
    match page.title with
    | some t =>
      [{ name := takeBeforeSub (S " Stats") t,
         pid := pidOfUrl page.url, url := page.url }]
    | none => []
  else
    match page.searchLinks with
    | none => []
    | some links =>
      links.foldr
        (fun l acc =>
          if strContains l.1 (S "/players/") then
            { name := l.2, pid := pidOfUrl l.1,
              url := S "https://www.basketball-reference.com" ++ l.1 } :: acc
          else acc)
        []

/-- A generated puzzle (the dict `generate_computer_question` returns). -/
structure Puzzle where
  clues : List Str
  all_answers : List Str
  guaranteed_answer : Str
  answer : Str
deriving DecidableEq

/-- A Python exception escaping one of the provider calls. -/
inductive PyErr
  | err
deriving DecidableEq

/-- The collaborators `generate_computer_question` calls during a trial:
player search and teammate fetch (either may raise), plus the two draws
of the trial-scoped random source (`rng.choice` over the full player
list and `rng.sample(·, 3)` over the candidate's roster), indexed by the
trial number. -/
structure Oracle where
  searchP : Str → Except PyErr (List SearchResult)
  fetchT : Str → Str → Int → Except PyErr (List Str)
  choose : Nat → List Str → Str
  sample3 : Nat → List Str → List Str

/-- Embedding of the clue-search loop (basketball_teammate_game.py,
lines 71-76): search each clue in turn, keeping the first hit; an empty
result breaks out of the loop, leaving the results collected so far. -/
def collectClueResults (o : Oracle) : List Str → Except PyErr (List SearchResult)
  | [] => .ok []
  | c :: rest =>
    match o.searchP c with
    | .error e => .error e
    | .ok [] => .ok []
    | .ok (r :: _) =>
      match collectClueResults o rest with
      | .error e => .error e
      | .ok rs => .ok (r :: rs)

/-- Embedding of the clue-roster loop (basketball_teammate_game.py,
lines 82-87): fetch each clue's teammates; an empty roster breaks out of
the loop, leaving the rosters collected so far. -/
def collectClueTeammates (o : Oracle) (m : Int) :
    List SearchResult → Except PyErr (List (List Str))
  | [] => .ok []
  | r :: rest =>
    match o.fetchT r.pid r.name m with
    | .error e => .error e
    | .ok [] => .ok []
    | .ok ts =>
      match collectClueTeammates o m rest with
      | .error e => .error e
      | .ok ls => .ok (ts :: ls)

/-- Embedding of the intersection step (basketball_teammate_game.py,
lines 93-94): the three-way intersection, minus the entries whose
Python-lower-cased form is the literal `teammate`. -/
def commonFiltered (l1 l2 l3 : List Str) : List Str :=
  ((l1.filter (fun c => l2.contains c)).filter
      (fun c => l3.contains c)).filter
    (fun c => ! (lowerStr c == S "teammate"))

/-- Embedding of the consistency check (basketball_teammate_game.py,
lines 96-102): when the candidate's normalized name is absent from the
normalized intersection, add the candidate. -/
def finalCommon (l1 l2 l3 : List Str) (target : Str) : List Str :=
  let common := commonFiltered l1 l2 l3
  if ((common.map normalize_name).contains (normalize_name target)) then
    common
  else
    common ++ [target]

/-- Embedding of the final step of a trial (basketball_teammate_game.py,
lines 104-111): build the puzzle dict when the common set has at least
one member. -/
def mkPuzzleStep (r1 r2 r3 : SearchResult) (l1 l2 l3 : List Str)
    (target : Str) : Option Puzzle :=
  let common := finalCommon l1 l2 l3 target
  if 1 ≤ common.length then
    some { clues := [r1.name, r2.name, r3.name], all_answers := common,
           guaranteed_answer := target, answer := target }
  else
    none

/-- Embedding of the body of the `try` block of one generation trial
(basketball_teammate_game.py, lines 53-111), for trial number `i` with
drawn candidate `target`: `.ok (some p)` is a returned puzzle,
`.ok none` an abandoned trial, `.error` an exception reaching the
`except` handler. -/
def trialBody (o : Oracle) (i : Nat) (m : Int) (target : Str) :
    Except PyErr (Option Puzzle) :=
  match o.searchP target with
  | .error e => .error e
  | .ok [] => .ok none
  | .ok (tinfo :: _) =>
    match o.fetchT tinfo.pid tinfo.name m with
    | .error e => .error e
    | .ok tmates =>
      if tmates.length < 3 then .ok none
      else
        match collectClueResults o (o.sample3 i tmates) with
        | .error e => .error e
        | .ok [r1, r2, r3] =>
          match collectClueTeammates o m [r1, r2, r3] with
          | .error e => .error e
          | .ok [l1, l2, l3] => .ok (mkPuzzleStep r1 r2 r3 l1 l2 l3 target)
          | .ok _ => .ok none
        | .ok _ => .ok none

/-- Embedding of the retry loop of `generate_computer_question`
(basketball_teammate_game.py, lines 47-117): run trials while fuel
remains, treating both an abandoned trial and a caught exception as one
consumed trial. -/
def generateAux (o : Oracle) (allP : List Str) (m : Int) :
    Nat → Nat → Option Puzzle
  | 0, _ => none
  | fuel + 1, i =>
    match trialBody o i m (o.choose i allP) with
    | .ok (some p) => some p
    | .ok none => generateAux o allP m fuel (i + 1)
    | .error _ => generateAux o allP m fuel (i + 1)

/-- Embedding of `generate_computer_question` (basketball_teammate_game.py,
lines 36-117): at most `max_trials` trials starting from trial 0. -/
def generate_computer_question (o : Oracle) (max_trials : Nat) (m : Int)
    (allP : List Str) : Option Puzzle :=
  generateAux o allP m max_trials 0

/-- Embedding of the computer-mode guess check
(basketball_teammate_game.py, lines 500-506): the normalized guess is
among the normalized answers.  The player-mode check of the main variant
(lines 410-416) is the same comparison against the common list. -/
def isCorrectComp (guess : Str) (answers : List Str) : Bool :=
  (answers.map normalize_name).contains (normalize_name guess)

/-- Embedding of the matched-entry lookup (basketball_teammate_game.py,
lines 507-511): the first answer whose normalized form equals the
normalized guess. -/
def matchedAnswer (guess : Str) (answers : List Str) : Option Str :=
  answers.find? (fun a => normalize_name a == normalize_name guess)

/-- Embedding of the nna variant's guess check (nna_guess_teammate.py,
line 295): the stripped lower-cased guess equals the stripped
lower-cased chosen answer. -/
def nnaGuessCorrect (guess answer : Str) : Bool :=
  lowerStr (stripStr guess) == lowerStr (stripStr answer)

/-- Pairwise intersection of two rosters (`set(t1) & set(t2)`),
the diagnostic shown by both UIs. -/
def pairInter (a b : List Str) : List Str :=
  a.filter (fun c => b.contains c)

/-- Embedding of the common intersection of the nna variant's player
mode (nna_guess_teammate.py, line 244): the plain three-way intersection
`set(t1) & set(t2) & set(t3)`, with no sentinel filtering at all. -/
def nnaCommon (l1 l2 l3 : List Str) : List Str :=
  (l1.filter (fun c => l2.contains c)).filter (fun c => l3.contains c)

/-- Characters the whole normalization pipeline leaves fixed: atomic
under NFKD, not a combining mark, and fixed by lower-casing. -/
def inertCharB (c : Char) : Bool :=
  decompNFKD c == [c] && ! isCombiningMark c && (pyToLower c == c)

/-- The core of `normalize_name` before the final strip. -/
def fCore (s : Str) : Str :=
  ((s.flatMap decompNFKD).filter (fun c => ! isCombiningMark c)).map pyToLower

lemma normalize_eq_strip_fCore (s : Str) :
    normalize_name s = stripStr (fCore s) := rfl

lemma lowerTable_inert :
    lowerTable.all (fun p => p.1 == 'Ć' || inertCharB p.2) = true := by
  decide

lemma inert_pyToLower (c : Char) (h1 : c ≠ 'ć') (h2 : c ≠ 'Ć')
    (h3 : isCombiningMark c = false) : inertCharB (pyToLower c) = true := by
  cases hf : lowerTable.find? (fun p => p.1 == c) with
  | some p =>
    have hp := List.mem_of_find?_eq_some hf
    have hc : p.1 = c := by simpa using List.find?_some hf
    have h := List.all_eq_true.mp lowerTable_inert p hp
    have hne : (p.1 == 'Ć') = false := by
      rw [hc]
      simpa using h2
    rw [hne, Bool.false_or] at h
    have he : pyToLower c = p.2 := by simp [pyToLower, hf]
    rw [he]
    exact h
  | none =>
    have hpc : pyToLower c = c := by simp [pyToLower, hf]
    rw [hpc]
    simp [inertCharB, decompNFKD, h1, h2, h3, hpc]

lemma inert_decomp (c d : Char) (hd : d ∈ decompNFKD c)
    (h3 : isCombiningMark d = false) : inertCharB (pyToLower d) = true := by
  by_cases h1 : c = 'ć'
  · subst h1
    have hcase : d = 'c' ∨ d = combiningAcute := by
      simpa [decompNFKD] using hd
    rcases hcase with h | h
    · subst h; decide
    · subst h; simp [isCombiningMark] at h3
  · by_cases h2 : c = 'Ć'
    · subst h2
      have hcase : d = 'C' ∨ d = combiningAcute := by
        simpa [decompNFKD] using hd
      rcases hcase with h | h
      · subst h; decide
      · subst h; simp [isCombiningMark] at h3
    · have hdc : d = c := by simpa [decompNFKD, h1, h2] using hd
      rw [hdc] at h3 ⊢
      exact inert_pyToLower c h1 h2 h3

lemma fCore_inert (s : Str) : ∀ x ∈ fCore s, inertCharB x = true := by
  intro x hx
  simp only [fCore, List.mem_map, List.mem_filter, List.mem_flatMap] at hx
  obtain ⟨d, ⟨⟨c, _, hdc⟩, hmark⟩, rfl⟩ := hx
  exact inert_decomp c d hdc (by simpa using hmark)

lemma fCore_cons (a : Char) (t : Str) (ha : inertCharB a = true) :
    fCore (a :: t) = a :: fCore t := by
  simp only [inertCharB, Bool.and_eq_true, beq_iff_eq,
    Bool.not_eq_true'] at ha
  obtain ⟨⟨hd, hm⟩, hl⟩ := ha
  simp [fCore, List.flatMap_cons, hd, List.filter_cons, hm, hl]

lemma fCore_fixed (t : Str) (h : ∀ x ∈ t, inertCharB x = true) :
    fCore t = t := by
  induction t with
  | nil => rfl
  | cons a t ih =>
    rw [fCore_cons a t (h a (List.mem_cons_self a t))]
    rw [ih (fun x hx => h x (List.mem_cons_of_mem a hx))]

lemma mem_stripStr {x : Char} {s : Str} (h : x ∈ stripStr s) : x ∈ s := by
  unfold stripStr at h
  rw [List.mem_reverse] at h
  have h2 := List.Sublist.mem h (List.dropWhile_sublist isPySpace)
  rw [List.mem_reverse] at h2
  exact List.Sublist.mem h2 (List.dropWhile_sublist isPySpace)

lemma dropWhile_idem (p : Char → Bool) (l : List Char) :
    (l.dropWhile p).dropWhile p = l.dropWhile p := by
  induction l with
  | nil => rfl
  | cons a t ih =>
    rw [List.dropWhile_cons]
    by_cases h : p a = true
    · rw [if_pos h]; exact ih
    · rw [if_neg h, List.dropWhile_cons, if_neg h]

lemma head?_dropWhile (p : Char → Bool) (l : List Char) (c : Char)
    (h : (l.dropWhile p).head? = some c) : p c = false := by
  induction l with
  | nil => simp at h
  | cons a t ih =>
    rw [List.dropWhile_cons] at h
    by_cases hp : p a = true
    · rw [if_pos hp] at h; exact ih h
    · rw [if_neg hp] at h
      simp only [List.head?_cons, Option.some.injEq] at h
      cases h
      exact Bool.eq_false_iff.mpr hp

lemma rev_dropWhile_append (p : Char → Bool) (a : Char) (ha : p a = false)
    (xs : List Char) :
    ∃ r, (List.dropWhile p (xs ++ [a])).reverse = a :: r := by
  induction xs with
  | nil =>
    refine ⟨[], ?_⟩
    rw [List.nil_append, List.dropWhile_cons, if_neg (by simp [ha])]
    rfl
  | cons x t ih =>
    rw [List.cons_append, List.dropWhile_cons]
    by_cases hx : p x = true
    · rw [if_pos hx]; exact ih
    · rw [if_neg hx]
      refine ⟨t.reverse ++ [x], ?_⟩
      simp

lemma dropWhile_rev_dropWhile (p : Char → Bool) (u : List Char)
    (h : ∀ c, u.head? = some c → p c = false) :
    List.dropWhile p ((List.dropWhile p u.reverse).reverse)
      = (List.dropWhile p u.reverse).reverse := by
  cases u with
  | nil => rfl
  | cons a t =>
    have ha : p a = false := h a rfl
    have hrev : (a :: t).reverse = t.reverse ++ [a] := by simp
    rw [hrev]
    obtain ⟨r, hr⟩ := rev_dropWhile_append p a ha t.reverse
    rw [hr, List.dropWhile_cons, if_neg (by simp [ha])]

lemma stripStr_idem (s : Str) : stripStr (stripStr s) = stripStr s := by
  unfold stripStr
  have hhead : ∀ c, (s.dropWhile isPySpace).head? = some c →
      isPySpace c = false := fun c hc => head?_dropWhile isPySpace s c hc
  rw [dropWhile_rev_dropWhile isPySpace (s.dropWhile isPySpace) hhead]
  rw [List.reverse_reverse, dropWhile_idem]

/-- C5: `normalize_name` is idempotent: for every string `x` (over the
embedded character fragment), `normalize_name (normalize_name x) =
normalize_name x`, where `normalize_name` is NFKD decomposition, removal
of combining marks, lower-casing, and trimming of leading and trailing
whitespace. -/
theorem C5_normalize_name_idempotent (s : Str) :
    normalize_name (normalize_name s) = normalize_name s := by
  have h : ∀ x ∈ stripStr (fCore s), inertCharB x = true :=
    fun x hx => fCore_inert s x (mem_stripStr hx)
  rw [normalize_eq_strip_fCore (normalize_name s),
    normalize_eq_strip_fCore s, fCore_fixed _ h]
  exact stripStr_idem (fCore s)

lemma finalCommon_norm_mem (l1 l2 l3 : List Str) (t : Str) :
    normalize_name t ∈ (finalCommon l1 l2 l3 t).map normalize_name := by
  unfold finalCommon
  by_cases h : ((commonFiltered l1 l2 l3).map normalize_name).contains
      (normalize_name t) = true
  · rw [if_pos h]
    rw [List.contains_iff_exists_mem_beq] at h
    obtain ⟨a, ha, hae⟩ := h
    rw [beq_iff_eq] at hae
    rw [hae]
    exact ha
  · rw [if_neg h, List.map_append]
    exact List.mem_append_right _ (by simp)

lemma finalCommon_ne_nil (l1 l2 l3 : List Str) (t : Str) :
    finalCommon l1 l2 l3 t ≠ [] := by
  intro h
  have hm := finalCommon_norm_mem l1 l2 l3 t
  rw [h] at hm
  simp at hm

lemma mkPuzzleStep_eq (r1 r2 r3 : SearchResult) (l1 l2 l3 : List Str)
    (t : Str) :
    mkPuzzleStep r1 r2 r3 l1 l2 l3 t =
      some { clues := [r1.name, r2.name, r3.name],
             all_answers := finalCommon l1 l2 l3 t,
             guaranteed_answer := t, answer := t } := by
  unfold mkPuzzleStep
  rw [if_pos]
  exact Nat.one_le_iff_ne_zero.mpr
    (fun hz => finalCommon_ne_nil l1 l2 l3 t (List.length_eq_zero.mp hz))

/-- C10: after the consistency check, the computed common set is never
empty (it contains the candidate, inserted when its normalized form is
absent, or an entry with the candidate's normalized name otherwise), so
the final `len(common) >= 1` check cannot fail, and every trial that
reaches the intersection step returns the puzzle built from the common
set. -/
theorem C10_common_nonempty_after_consistency (r1 r2 r3 : SearchResult)
    (l1 l2 l3 : List Str) (target : Str) :
    finalCommon l1 l2 l3 target ≠ [] ∧
    mkPuzzleStep r1 r2 r3 l1 l2 l3 target =
      some { clues := [r1.name, r2.name, r3.name],
             all_answers := finalCommon l1 l2 l3 target,
             guaranteed_answer := target, answer := target } :=
  ⟨finalCommon_ne_nil l1 l2 l3 target, mkPuzzleStep_eq r1 r2 r3 l1 l2 l3 target⟩

lemma mkPuzzleStep_inv {r1 r2 r3 : SearchResult} {l1 l2 l3 : List Str}
    {t : Str} {p : Puzzle} (h : mkPuzzleStep r1 r2 r3 l1 l2 l3 t = some p) :
    p.all_answers = finalCommon l1 l2 l3 t ∧ p.guaranteed_answer = t := by
  rw [mkPuzzleStep_eq] at h
  injection h with h
  rw [← h]
  exact ⟨rfl, rfl⟩

lemma trialBody_norm_mem {o : Oracle} {i : Nat} {m : Int} {target : Str}
    {p : Puzzle} (h : trialBody o i m target = .ok (some p)) :
    normalize_name p.guaranteed_answer ∈ p.all_answers.map normalize_name := by
  unfold trialBody at h
  split at h <;> try cases h
  split at h <;> try cases h
  split at h <;> try cases h
  split at h <;> try cases h
  split at h <;> try cases h
  injection h with h
  obtain ⟨ha, hg⟩ := mkPuzzleStep_inv h
  rw [ha, hg]
  exact finalCommon_norm_mem _ _ _ _

lemma generateAux_norm_mem {o : Oracle} {allP : List Str} {m : Int} :
    ∀ fuel i p, generateAux o allP m fuel i = some p →
      normalize_name p.guaranteed_answer ∈ p.all_answers.map normalize_name := by
  intro fuel
  induction fuel with
  | zero => intro i p h; exact absurd h (by simp [generateAux])
  | succ n ih =>
    intro i p h
    unfold generateAux at h
    split at h
    · rename_i q heq
      injection h with h
      rw [← h]
      exact trialBody_norm_mem heq
    · exact ih (i + 1) p h
    · exact ih (i + 1) p h

/-- C1 (amended): for every puzzle returned by
`generate_computer_question`, the normalized form of the guaranteed
answer is among the normalized forms of all answers — the candidate is
inserted when its normalized name is absent from the normalized
intersection, and otherwise an entry with the candidate's normalized
name is already present.  Literal membership `guaranteedAnswer ∈
allAnswers` can fail when the intersection holds a differently spelled
entry with the same normalized form. -/
theorem C1_guaranteed_normalized_member (o : Oracle) (max_trials : Nat)
    (m : Int) (allP : List Str) (p : Puzzle)
    (h : generate_computer_question o max_trials m allP = some p) :
    normalize_name p.guaranteed_answer ∈ p.all_answers.map normalize_name :=
  generateAux_norm_mem max_trials 0 p h

/-- Providers for the C1 counterexample: the candidate is the
ASCII-spelled `Nurkic` from the directory, while every clue roster spells
the same player `Nurkić` with the diacritic. -/
def oC1 : Oracle where
  searchP := fun s => .ok [{ name := s, pid := s, url := s }]
  fetchT := fun pid _ _ =>
    if pid == S "Nurkic" then .ok [S "Aaa", S "Bbb", S "Ccc"]
    else .ok [S "Nurkić"]
  choose := fun _ l => l.headD []
  sample3 := fun _ l => l.take 3

/-- The puzzle the C1 counterexample run produces. -/
def pC1 : Puzzle :=
  { clues := [S "Aaa", S "Bbb", S "Ccc"], all_answers := [S "Nurkić"],
    guaranteed_answer := S "Nurkic", answer := S "Nurkic" }

/-- C1 counterexample: a returned puzzle whose guaranteed answer is not a
member of its answer set — the intersection spells the candidate with a
diacritic, so the normalized-name check suppresses the insertion while
literal membership fails. -/
theorem C1_counterexample :
    generate_computer_question oC1 1 0 [S "Nurkic"] = some pC1 ∧
    pC1.guaranteed_answer ∉ pC1.all_answers := by
  constructor
  · decide
  · decide

/-- Witness for C1: the amended theorem applied to the concrete run. -/
theorem C1_guaranteed_normalized_member_witness :
    normalize_name pC1.guaranteed_answer ∈ pC1.all_answers.map normalize_name :=
  C1_guaranteed_normalized_member oC1 1 0 [S "Nurkic"] pC1 (by decide)

lemma generateAux_none {o : Oracle} {allP : List Str} {m : Int} :
    ∀ fuel i, (∀ j, i ≤ j → j < i + fuel →
        ∀ p, trialBody o j m (o.choose j allP) ≠ .ok (some p)) →
      generateAux o allP m fuel i = none := by
  intro fuel
  induction fuel with
  | zero => intro i _; rfl
  | succ n ih =>
    intro i h
    unfold generateAux
    split
    · rename_i q heq
      exact absurd heq (h i (Nat.le_refl i) (by omega) q)
    · exact ih (i + 1) (fun j hj1 hj2 q => h j (by omega) (by omega) q)
    · exact ih (i + 1) (fun j hj1 hj2 q => h j (by omega) (by omega) q)

/-- C2: the generator runs at most `maxTrials` trials and returns none
when no trial succeeds; an exception inside a trial's steps surfaces at
the trial boundary and is consumed as one abandoned trial instead of
propagating out of the loop; and with `maxTrials = 1`, a drawn candidate
whose roster has fewer than 3 entries makes the whole call return
none. -/
theorem C2_trial_budget_and_exception_boundary :
    (∀ (o : Oracle) (allP : List Str) (m : Int) (max_trials : Nat),
      (∀ j, j < max_trials →
        ∀ p, trialBody o j m (o.choose j allP) ≠ .ok (some p)) →
      generate_computer_question o max_trials m allP = none)
    ∧ (∀ (o : Oracle) (i : Nat) (m : Int) (target : Str) (e : PyErr),
        o.searchP target = .error e → trialBody o i m target = .error e)
    ∧ (∀ (o : Oracle) (allP : List Str) (m : Int) (fuel i : Nat) (e : PyErr),
        trialBody o i m (o.choose i allP) = .error e →
        generateAux o allP m (fuel + 1) i = generateAux o allP m fuel (i + 1))
    ∧ (∀ (o : Oracle) (allP : List Str) (m : Int) (r : SearchResult)
        (rs : List SearchResult) (ts : List Str),
        o.searchP (o.choose 0 allP) = .ok (r :: rs) →
        o.fetchT r.pid r.name m = .ok ts → ts.length < 3 →
        generate_computer_question o 1 m allP = none) := by
  refine ⟨?_, ?_, ?_, ?_⟩
  · intro o allP m max_trials h
    exact generateAux_none max_trials 0 (fun j hj1 hj2 p => h j (by omega) p)
  · intro o i m target e h
    unfold trialBody
    rw [h]
  · intro o allP m fuel i e h
    conv_lhs => unfold generateAux
    rw [h]
  · intro o allP m r rs ts h1 h2 h3
    have hb : trialBody o 0 m (o.choose 0 allP) = .ok none := by
      simp [trialBody, h1, h2, h3]
    simp [generate_computer_question, generateAux, hb]

/-- Providers for the C2 witness: search always resolves, but every
roster has only two entries, so the single trial is abandoned. -/
def oC2 : Oracle where
  searchP := fun s => .ok [{ name := s, pid := s, url := s }]
  fetchT := fun _ _ _ => .ok [S "AAA", S "BBB"]
  choose := fun _ l => l.headD []
  sample3 := fun _ l => l.take 3

/-- Providers for the C2 witness's exception part: every search raises. -/
def oC2err : Oracle where
  searchP := fun _ => .error .err
  fetchT := fun _ _ _ => .error .err
  choose := fun _ l => l.headD []
  sample3 := fun _ l => l.take 3

/-- Witness for C2: the concrete two-entry-roster run returns none in
one trial, the zero-trial run returns none, a raising search makes the
trial an error, and that error consumes exactly one trial. -/
theorem C2_trial_budget_witness :
    generate_computer_question oC2 1 0 [S "Q"] = none ∧
    generate_computer_question oC2 0 0 [] = none ∧
    trialBody oC2err 0 0 (S "Q") = .error .err ∧
    generateAux oC2err [] 0 1 0 = generateAux oC2err [] 0 0 1 := by
  refine ⟨?_, ?_, ?_, ?_⟩
  · exact C2_trial_budget_and_exception_boundary.2.2.2 oC2 [S "Q"] 0
      { name := S "Q", pid := S "Q", url := S "Q" } []
      [S "AAA", S "BBB"] rfl rfl (by decide)
  · exact C2_trial_budget_and_exception_boundary.1 oC2 [] 0 0
      (fun j hj p => absurd hj (by omega))
  · exact C2_trial_budget_and_exception_boundary.2.1 oC2err 0 0 (S "Q") .err rfl
  · exact C2_trial_budget_and_exception_boundary.2.2.1 oC2err [] 0 0 0 .err
      (C2_trial_budget_and_exception_boundary.2.1 oC2err 0 0
        (oC2err.choose 0 []) .err rfl)

lemma contains_iff_mem (l : List Str) (x : Str) :
    l.contains x = true ↔ x ∈ l := List.elem_iff

/-- C3 (amended), split by variant: the main variant's common result
holds exactly the entries of all three rosters whose Python-lower-cased
form is not the literal `teammate` (lower-casing only — without the
trimming and diacritic removal of full normalization); the nna variant's
common result is the plain triple intersection with no sentinel
filtering at all, so even the exact entry `Teammate` survives there;
both are contained in each of the three pairwise intersections. -/
theorem C3_intersection_characterization :
    (∀ (l1 l2 l3 : List Str) (x : Str),
      x ∈ commonFiltered l1 l2 l3 ↔
        x ∈ l1 ∧ x ∈ l2 ∧ x ∈ l3 ∧ lowerStr x ≠ S "teammate")
    ∧ (∀ (l1 l2 l3 : List Str) (x : Str), x ∈ commonFiltered l1 l2 l3 →
        x ∈ pairInter l1 l2 ∧ x ∈ pairInter l1 l3 ∧ x ∈ pairInter l2 l3)
    ∧ (∀ (l1 l2 l3 : List Str) (x : Str),
        x ∈ nnaCommon l1 l2 l3 ↔ x ∈ l1 ∧ x ∈ l2 ∧ x ∈ l3)
    ∧ (∀ (l1 l2 l3 : List Str) (x : Str), x ∈ nnaCommon l1 l2 l3 →
        x ∈ pairInter l1 l2 ∧ x ∈ pairInter l1 l3 ∧ x ∈ pairInter l2 l3) := by
  have hchar : ∀ (l1 l2 l3 : List Str) (x : Str),
      x ∈ commonFiltered l1 l2 l3 ↔
        x ∈ l1 ∧ x ∈ l2 ∧ x ∈ l3 ∧ lowerStr x ≠ S "teammate" := by
    intro l1 l2 l3 x
    unfold commonFiltered
    simp only [List.mem_filter, contains_iff_mem, Bool.not_eq_true',
      beq_eq_false_iff_ne, ne_eq, Bool.and_eq_true]
    tauto
  have hnna : ∀ (l1 l2 l3 : List Str) (x : Str),
      x ∈ nnaCommon l1 l2 l3 ↔ x ∈ l1 ∧ x ∈ l2 ∧ x ∈ l3 := by
    intro l1 l2 l3 x
    unfold nnaCommon
    simp only [List.mem_filter, contains_iff_mem]
    tauto
  refine ⟨hchar, ?_, hnna, ?_⟩
  · intro l1 l2 l3 x hx
    rw [hchar] at hx
    obtain ⟨h1, h2, h3, _⟩ := hx
    unfold pairInter
    simp only [List.mem_filter, contains_iff_mem]
    exact ⟨⟨h1, h2⟩, ⟨h1, h3⟩, ⟨h2, h3⟩⟩
  · intro l1 l2 l3 x hx
    rw [hnna] at hx
    obtain ⟨h1, h2, h3⟩ := hx
    unfold pairInter
    simp only [List.mem_filter, contains_iff_mem]
    exact ⟨⟨h1, h2⟩, ⟨h1, h3⟩, ⟨h2, h3⟩⟩

/-- C3 counterexample: an entry whose normalized form equals the
normalized excluded token survives the code's filter, because the code
compares only lower-cased forms without trimming: `"Teammate "` (with a
trailing blank) stays in the common set. -/
theorem C3_counterexample :
    S "Teammate " ∈
      commonFiltered [S "Teammate "] [S "Teammate "] [S "Teammate "] ∧
    normalize_name (S "Teammate ") = normalize_name (S "teammate") := by
  exact ⟨by decide, by decide⟩

/-- Witness for C3: the spec's scenario rosters, where the common entry
`C` lies in every pairwise intersection, and the unfiltered nna
intersection on rosters holding the exact sentinel `Teammate`, which
survives there. -/
theorem C3_intersection_witness :
    (S "C" ∈ pairInter [S "A", S "B", S "C"] [S "B", S "C", S "D"] ∧
     S "C" ∈ pairInter [S "A", S "B", S "C"] [S "C", S "D", S "E"] ∧
     S "C" ∈ pairInter [S "B", S "C", S "D"] [S "C", S "D", S "E"]) ∧
    S "Teammate" ∈
      nnaCommon [S "Teammate"] [S "Teammate"] [S "Teammate"] := by
  constructor
  · exact C3_intersection_characterization.2.1 [S "A", S "B", S "C"]
      [S "B", S "C", S "D"] [S "C", S "D", S "E"] (S "C") (by decide)
  · exact (C3_intersection_characterization.2.2.1 [S "Teammate"]
      [S "Teammate"] [S "Teammate"] (S "Teammate")).mpr
      ⟨by decide, by decide, by decide⟩

/-- C4 (amended): the main variant's matcher accepts exactly the guesses
whose normalized form equals the normalized form of some member of the
answer set (any member, not only the guaranteed answer), and its
matched-entry lookup returns an original-cased member whose normalized
form equals the normalized guess; the nna variant's player-mode check
instead compares the stripped lower-cased guess against the single
chosen answer only, so diacritic variants of a member are rejected
there. -/
theorem C4_answer_matcher :
    (∀ (guess : Str) (answers : List Str),
      isCorrectComp guess answers = true ↔
        ∃ a, a ∈ answers ∧ normalize_name a = normalize_name guess)
    ∧ (∀ (guess : Str) (answers : List Str) (a : Str),
        matchedAnswer guess answers = some a →
          a ∈ answers ∧ normalize_name a = normalize_name guess)
    ∧ (∀ (guess : Str) (answers : List Str),
        isCorrectComp guess answers = true →
          ∃ a, matchedAnswer guess answers = some a) := by
  have hiff : ∀ (guess : Str) (answers : List Str),
      isCorrectComp guess answers = true ↔
        ∃ a, a ∈ answers ∧ normalize_name a = normalize_name guess := by
    intro guess answers
    unfold isCorrectComp
    rw [List.contains_iff_exists_mem_beq]
    constructor
    · rintro ⟨b, hb, hbe⟩
      rw [List.mem_map] at hb
      obtain ⟨a, ha, hab⟩ := hb
      refine ⟨a, ha, ?_⟩
      rw [hab]
      exact (beq_iff_eq.mp hbe).symm
    · rintro ⟨a, ha, hae⟩
      exact ⟨normalize_name a, List.mem_map_of_mem normalize_name ha,
        beq_iff_eq.mpr hae.symm⟩
  refine ⟨hiff, ?_, ?_⟩
  · intro guess answers a h
    unfold matchedAnswer at h
    refine ⟨List.mem_of_find?_eq_some h, ?_⟩
    have hp := List.find?_some h
    simpa using hp
  · intro guess answers h
    obtain ⟨a, ha, hae⟩ := (hiff guess answers).mp h
    have hs : (matchedAnswer guess answers).isSome = true := by
      unfold matchedAnswer
      exact List.find?_isSome.mpr ⟨a, ha, beq_iff_eq.mpr hae⟩
    exact Option.isSome_iff_exists.mp hs

/-- C4 counterexample: the nna variant's player-mode guess check rejects
a guess whose normalized form equals the normalized form of the answer
set's only member — `"nurkić "` against the set containing `"Nurkic"` —
because it compares stripped lower-cased strings without diacritic
removal and only against the one chosen answer. -/
theorem C4_counterexample :
    normalize_name (S "nurkić ") = normalize_name (S "Nurkic") ∧
    S "Nurkic" ∈ [S "Nurkic"] ∧
    nnaGuessCorrect (S "nurkić ") (S "Nurkic") = false :=
  ⟨by decide, by decide, by decide⟩

/-- Witness for C4: the diacritic-variant guess is accepted by the main
variant's matcher and matched to the original-cased member. -/
theorem C4_answer_matcher_witness :
    isCorrectComp (S "nurkić ") [S "Nurkic"] = true ∧
    matchedAnswer (S "nurkić ") [S "Nurkic"] = some (S "Nurkic") ∧
    S "Nurkic" ∈ [S "Nurkic"] ∧
    normalize_name (S "Nurkic") = normalize_name (S "nurkić ") := by
  refine ⟨?_, by decide, ?_, ?_⟩
  · exact (C4_answer_matcher.1 (S "nurkić ") [S "Nurkic"]).mpr
      ⟨S "Nurkic", by decide, by decide⟩
  · exact (C4_answer_matcher.2.1 (S "nurkić ") [S "Nurkic"] (S "Nurkic")
      (by decide)).1
  · exact (C4_answer_matcher.2.1 (S "nurkić ") [S "Nurkic"] (S "Nurkic")
      (by decide)).2

/-- C6 (amended): the main variant's parser returns an empty roster for
every table without a `Teammate`-containing header; the nna variant does
so only for multi-level-header tables — for a single-level table with at
least two columns and no exact `Teammate` column it substitutes column
index 1 instead of returning an empty roster. -/
theorem C6_missing_teammate_column :
    (∀ (t : PyTable) (m : Int),
      (∀ h ∈ t.headers, isTeammateHeader h = false) →
      fetch_teammates t m = [])
    ∧ (∀ t : PyTable, t.headers.any isMultiHeader = true →
        (∀ h ∈ t.headers, nnaHeaderMatch h = false) →
        fetchTeammatesNna t = []) := by
  constructor
  · intro t m h
    unfold fetch_teammates
    have hn : findColIdx isTeammateHeader t.headers = none :=
      List.findIdx?_eq_none_iff.mpr h
    rw [hn]
  · intro t hm h
    unfold fetchTeammatesNna nnaSelectCol
    rw [if_pos hm]
    have hn : findColIdx nnaHeaderMatch t.headers = none :=
      List.findIdx?_eq_none_iff.mpr h
    rw [hn]

/-- A table without any `Teammate`-labelled column: two flat headers and
one row. -/
def tC6 : PyTable :=
  { headers := [PyHeader.flat (S "Player"), PyHeader.flat (S "Tm")],
    rows := [[PyCell.str (S "Alice"), PyCell.str (S "Bob")]] }

/-- C6 counterexample: a single-level table with no header containing
`Teammate` at any level, for which the nna variant's parser substitutes
the second column and returns a non-empty roster instead of an empty
one. -/
theorem C6_counterexample :
    tC6.headers.all (fun h => ! nnaHeaderMatch h && ! isTeammateHeader h)
      = true ∧
    fetchTeammatesNna tC6 = [S "Bob"] := ⟨by decide, by decide⟩

/-- A multi-level-header table without any `Teammate` level. -/
def tC6m : PyTable :=
  { headers := [PyHeader.multi [S "Totals", S "Tm"]],
    rows := [[PyCell.str (S "Bob")]] }

/-- Witness for C6: both parsers return an empty roster on the concrete
tables their conjuncts cover. -/
theorem C6_missing_teammate_column_witness :
    fetch_teammates tC6 0 = [] ∧ fetchTeammatesNna tC6m = [] := by
  constructor
  · exact C6_missing_teammate_column.1 tC6 0 (by decide)
  · exact C6_missing_teammate_column.2 tC6m (by decide) (by decide)

/-- C7: without a `G` column the parser applies no occurrence filter —
the cleaned teammate column of every row is returned — and with a `G`
column a row passes the mask exactly when its cell coerces to a number
strictly greater than `min_games`; non-numeric and missing cells fail
the mask (they never raise, the mask is just false). -/
theorem C7_missing_g_column_unfiltered :
    (∀ (t : PyTable) (m : Int) (ti : Nat),
      findColIdx isGHeader t.headers = none →
      findColIdx isTeammateHeader t.headers = some ti →
      fetch_teammates t m = cleanSeries (t.rows.map (fun r => rowCell r ti)))
    ∧ (∀ (gi : Nat) (m : Int) (r : List PyCell),
        gMask (some gi) m r = true ↔
          ∃ n, cellToNum (rowCell r gi) = some n ∧ m < n) := by
  constructor
  · intro t m ti hg hti
    unfold fetch_teammates
    rw [hti]
    simp only [hg]
    rw [show gMask none m = (fun _ => true) from rfl, List.filter_true]
  · intro gi m r
    unfold gMask
    cases hc : cellToNum (rowCell r gi) with
    | none =>
      simp [hc]
    | some n =>
      simp only [hc, decide_eq_true_iff, Option.some.injEq]
      constructor
      · intro h
        exact ⟨n, rfl, h⟩
      · rintro ⟨n', hn', h⟩
        rw [hn']
        exact h

/-- A table with a teammate column and no `G` column. -/
def tC7 : PyTable :=
  { headers := [PyHeader.flat (S "Teammate")],
    rows := [[PyCell.str (S "Alice Smith")], [PyCell.str (S "Bob Jones")]] }

/-- Witness for C7: the no-`G` table is returned unfiltered, and a
numeric games cell above the threshold passes the mask. -/
theorem C7_missing_g_column_unfiltered_witness :
    fetch_teammates tC7 20 =
      cleanSeries (tC7.rows.map (fun r => rowCell r 0)) ∧
    (gMask (some 0) 20 [PyCell.num 52] = true ↔
      ∃ n, cellToNum (rowCell [PyCell.num 52] 0) = some n ∧ 20 < n) := by
  constructor
  · exact C7_missing_g_column_unfiltered.1 tC7 20 0 (by decide) (by decide)
  · exact C7_missing_g_column_unfiltered.2 0 20 [PyCell.num 52]

/-- C8: every value either parser returns is a cleaned teammate-name
cell — asterisks stripped, whitespace trimmed — taken from some row of
the table, its length exceeds 2, and it is not purely numeric; rows
whose cleaned cell fails these conditions contribute nothing. -/
theorem C8_roster_values_cleaned :
    (∀ (t : PyTable) (m : Int) (s : Str), s ∈ fetch_teammates t m →
      (2 < s.length ∧ isDigitStr s = false) ∧
      ∃ r ∈ t.rows, ∃ i, s = stripStr (removeStar (cellToStr (rowCell r i))))
    ∧ (∀ (t : PyTable) (s : Str), s ∈ fetchTeammatesNna t →
      (2 < s.length ∧ isDigitStr s = false) ∧
      ∃ r ∈ t.rows, ∃ i, s = stripStr (removeStar (cellToStr (rowCell r i)))) := by
  constructor
  · intro t m s hs
    unfold fetch_teammates at hs
    cases hti : findColIdx isTeammateHeader t.headers with
    | none =>
      rw [hti] at hs
      exact absurd hs (by simp)
    | some ti =>
      rw [hti] at hs
      unfold cleanSeries at hs
      rw [List.mem_filter] at hs
      obtain ⟨hmap, hpred⟩ := hs
      rw [Bool.and_eq_true, decide_eq_true_iff, Bool.not_eq_true'] at hpred
      refine ⟨hpred, ?_⟩
      rw [List.mem_map] at hmap
      obtain ⟨c, hc, hcs⟩ := hmap
      have hc2 := List.mem_of_mem_filter hc
      rw [List.mem_map] at hc2
      obtain ⟨r, hr, hrc⟩ := hc2
      exact ⟨r, List.mem_of_mem_filter hr, ti, by rw [← hcs, ← hrc]⟩
  · intro t s hs
    unfold fetchTeammatesNna at hs
    cases hsel : nnaSelectCol t with
    | none =>
      rw [hsel] at hs
      exact absurd hs (by simp)
    | some i =>
      rw [hsel] at hs
      rw [List.mem_filter] at hs
      obtain ⟨hmap, hpred⟩ := hs
      rw [Bool.and_eq_true, decide_eq_true_iff, Bool.not_eq_true'] at hpred
      refine ⟨hpred, ?_⟩
      rw [List.mem_map] at hmap
      obtain ⟨s', hs', hss⟩ := hmap
      have hs'2 := List.mem_of_mem_filter hs'
      rw [List.mem_map] at hs'2
      obtain ⟨c, hc, hcs⟩ := hs'2
      have hc2 := List.mem_of_mem_filter hc
      rw [List.mem_map] at hc2
      obtain ⟨r, hr, hrc⟩ := hc2
      exact ⟨r, hr, i, by rw [← hss, ← hcs, ← hrc]⟩

/-- A table with a multi-level teammate column, a games column, and rows
exercising every branch of the cleaning filter. -/
def tC8 : PyTable :=
  { headers := [PyHeader.multi [S "Totals", S "Teammate"],
                PyHeader.multi [S "Totals", S "G"]],
    rows := [[PyCell.str (S "Alice Smith*"), PyCell.num 52],
             [PyCell.str (S "1234"), PyCell.num 30],
             [PyCell.str (S "AB"), PyCell.num 40],
             [PyCell.str (S "Bob Jones"), PyCell.str (S "bad")]] }

example : fetch_teammates tC8 20 = [S "Alice Smith"] := by decide

/-- Witness for C8: the value returned from the concrete table is
cleaned, long enough, and non-numeric. -/
theorem C8_roster_values_cleaned_witness :
    (2 < (S "Alice Smith").length ∧ isDigitStr (S "Alice Smith") = false) ∧
    ∃ r ∈ tC8.rows, ∃ i,
      S "Alice Smith" = stripStr (removeStar (cellToStr (rowCell r i))) :=
  C8_roster_values_cleaned.1 tC8 20 (S "Alice Smith") (by decide)

/-- C9 (amended): when the response URL signals a direct single-match
redirect (it contains `/players/`) and the destination page carries a
title, `search_player` returns exactly one identity, whose stable key is
derived from the redirect URL and whose display name is the title text
before ` Stats`; a titleless destination instead yields zero results. -/
theorem C9_direct_redirect_single_identity (page : PageData) (t : Str)
    (hu : strContains page.url (S "/players/") = true)
    (ht : page.title = some t) :
    search_player page =
      [{ name := takeBeforeSub (S " Stats") t,
         pid := pidOfUrl page.url, url := page.url }] := by
  unfold search_player
  rw [if_pos hu, ht]

/-- A direct-redirect response whose destination page has no title. -/
def pgC9 : PageData :=
  { url := S "https://www.basketball-reference.com/players/n/nurkiju01.html",
    title := none, searchLinks := none }

/-- C9 counterexample: a direct single-match redirect whose destination
page lacks a `<title>` makes `search_player` return zero identities, not
exactly one. -/
theorem C9_counterexample :
    strContains pgC9.url (S "/players/") = true ∧ search_player pgC9 = [] :=
  ⟨by decide, by decide⟩

/-- A direct-redirect response with an ordinary titled player page. -/
def pgC9t : PageData :=
  { url := S "https://www.basketball-reference.com/players/n/nurkiju01.html",
    title := some (S "Jusuf Nurkić Stats | Basketball-Reference.com"),
    searchLinks := none }

/-- Witness for C9: the titled redirect page yields the one identity
with the key taken from the URL and name taken from the title. -/
theorem C9_direct_redirect_single_identity_witness :
    search_player pgC9t =
      [{ name := S "Jusuf Nurkić", pid := S "nurkiju01",
         url := pgC9t.url }] := by
  have h := C9_direct_redirect_single_identity pgC9t
    (S "Jusuf Nurkić Stats | Basketball-Reference.com") (by decide) rfl
  rw [h]
  decide
